import Mathlib

/-!
Shallow embedding of `src/main.py` (Pharmyrus Patent Search API v6.0).

Pure logic is translated directly from the Python source.  Network effects
are modelled by explicit environments: each outbound HTTP GET becomes a
lookup in a caller-supplied sequence of simulated responses, one entry per
retry attempt (`none` models a caught transport exception, i.e. a
`httpx.TimeoutException` / `httpx.ConnectError`).  A response body of
`none` models a payload on which `.json()` raises (the surrounding
`try/except` of the Python code then records an `error` outcome).
-/

-- ============================================
-- Basic helpers (Python built-ins used by main.py)
-- ============================================

/-- Python `int(s)` restricted to strings of ASCII digits (the only way the
source applies it: to regex captures of `\d` classes). -/
def strToNat (s : String) : Nat :=
  s.data.foldl (fun a c => a * 10 + (c.toNat - 48)) 0

/-- Python regex `\s` on the ASCII range (space, tab, newline, carriage
return, vertical tab, form feed). -/
def isPySpace (c : Char) : Bool :=
  c = ' ' || c = '\t' || c = '\n' || c = '\r' || c = '\x0b' || c = '\x0c'

/-- Python `s.replace("-", "")`. -/
def removeHyphens (s : String) : String :=
  String.mk (s.data.filter (fun c => c ≠ '-'))

/-- Python `s.strip()` on the ASCII range: drop leading and trailing
whitespace. -/
def pyStrip (s : String) : String :=
  String.mk (((s.data.dropWhile isPySpace).reverse.dropWhile isPySpace).reverse)

/-- Python `s.upper()` on the ASCII range. -/
def pyUpper (s : String) : String :=
  String.mk (s.data.map Char.toUpper)

/-- Python `s.startswith(pre)`. -/
def pyStartsWith (pre s : String) : Bool :=
  pre.data.isPrefixOf s.data

-- ============================================
-- HTTP CLIENT WITH RETRY  (main.py: http_get_with_retry, lines 94-114)
-- ============================================

/-- A simulated `httpx.Response`: a status code and a (typed) body. -/
structure HttpResponse (α : Type) where
  status_code : Nat
  body : α
deriving DecidableEq

/-- The retry loop of `http_get_with_retry`: `fuel` is the number of
remaining attempts, `attempt` indexes into the simulated response
sequence.  A 200 response is returned immediately; any other status and
any caught transport exception (`none`) lead to the next attempt (the
Python loop body falls through to the next iteration in all of these
cases; the `asyncio.sleep` pacing has no effect on the returned value). -/
def http_retry_go {α : Type} (responses : Nat → Option (HttpResponse α)) :
    Nat → Nat → Option (HttpResponse α)
  | 0, _ => none
  | fuel + 1, attempt =>
    match responses attempt with
    | some r => if r.status_code = 200 then some r else http_retry_go responses fuel (attempt + 1)
    | none => http_retry_go responses fuel (attempt + 1)

/-- `http_get_with_retry(client, url, params, timeout, max_retries=3)`:
the `client.get` calls are replaced by the simulated sequence
`responses`.  Exhausting `max_retries` yields `none` (Python `None`). -/
def http_get_with_retry {α : Type} (responses : Nat → Option (HttpResponse α))
    (max_retries : Nat := 3) : Option (HttpResponse α) :=
  http_retry_go responses max_retries 0

-- ============================================
-- PUBCHEM SERVICE  (main.py: fetch_pubchem_data, lines 120-160)
-- ============================================

/-- The dev-code regex `^[A-Z]{2,5}[-]?\d{3,7}[A-Z]?$` with `re.IGNORECASE`,
as applied by `dev_pattern.match(syn)` (anchored on both sides).  The
character classes of neighbouring regex elements are disjoint, so the
greedy quantifiers are deterministic: the maximal letter run must have
length 2..5, an optional hyphen follows, the maximal digit run must have
length 3..7, and at most one trailing letter may remain.  (`$` is modelled
as end-of-string.) -/
def isDevCode (s : String) : Bool :=
  let letters := s.data.takeWhile Char.isAlpha
  let rest1 := s.data.dropWhile Char.isAlpha
  if letters.length < 2 || letters.length > 5 then false
  else
    let rest2 := match rest1 with
      | '-' :: r => r
      | r => r
    let digits := rest2.takeWhile Char.isDigit
    let rest3 := rest2.dropWhile Char.isDigit
    if digits.length < 3 || digits.length > 7 then false
    else match rest3 with
      | [] => true
      | [c] => c.isAlpha
      | _ => false

/-- One iteration of the synonym loop of `fetch_pubchem_data`, restricted
to the dev-code accumulation: falsy synonyms are skipped; a synonym is
appended when it matches the dev-code pattern, fewer than 25 codes were
collected, and its upper-case form is not already present. -/
def dev_code_step (acc : List String) (syn : String) : List String :=
  if syn = "" then acc
  else if isDevCode syn = true ∧ acc.length < 25 ∧ pyUpper syn ∉ acc.map pyUpper then
    acc ++ [syn]
  else acc

/-- The `result["dev_codes"]` list produced by `fetch_pubchem_data` from a
given synonym list. -/
def collect_dev_codes (synonyms : List String) : List String :=
  synonyms.foldl dev_code_step []

/-- The PubChem synonyms URL built by `fetch_pubchem_data`. -/
def fetch_pubchem_url (molecule : String) : String :=
  "https://pubchem.ncbi.nlm.nih.gov/rest/pug/compound/name/" ++ molecule ++ "/synonyms/JSON"

-- ============================================
-- WO NUMBER EXTRACTION  (main.py: extract_wo_numbers_from_text, lines 166-219)
-- ============================================

/-- Match the two literal characters `WO` case-insensitively at the head of
the input; return the remaining characters. -/
def matchWOHead : List Char → Option (List Char)
  | w :: o :: rest => if w.toLower = 'w' ∧ o.toLower = 'o' then some rest else none
  | _ => none

/-- Exactly `n` ASCII digits at the head of the input, returned together
with the remaining characters. -/
def exactDigits : Nat → List Char → Option (List Char × List Char)
  | 0, s => some ([], s)
  | _ + 1, [] => none
  | n + 1, c :: s =>
    if c.isDigit then
      match exactDigits n s with
      | some (d, r) => some (c :: d, r)
      | none => none
    else none

/-- An optional single character from the class `p` (regex `X?`).  All
optional classes in the WO patterns are disjoint from the `\d` class that
follows them, so the greedy `?` is deterministic. -/
def optClass (p : Char → Bool) : List Char → List Char
  | [] => []
  | c :: r => if p c then r else c :: r

/-- Regex class `[\s\-]`. -/
def isSepA (c : Char) : Bool := isPySpace c || c = '-'

/-- Regex class `[\s/\-]`. -/
def isSepB (c : Char) : Bool := isPySpace c || c = '/' || c = '-'

/-- Pattern 1: `WO[\s\-]?(\d{4})[\s/\-]?(\d{6})` (IGNORECASE) at the head of
the input.  Returns the remainder after the match and the two captures. -/
def tryP1 (s : List Char) : Option (List Char × List String) :=
  match matchWOHead s with
  | none => none
  | some r1 =>
    match exactDigits 4 (optClass isSepA r1) with
    | none => none
    | some (year, r2) =>
      match exactDigits 6 (optClass isSepB r2) with
      | none => none
      | some (num, r3) => some (r3, [String.mk year, String.mk num])

/-- Pattern 2: `WO(\d{4})(\d{6})` (IGNORECASE) at the head of the input. -/
def tryP2 (s : List Char) : Option (List Char × List String) :=
  match matchWOHead s with
  | none => none
  | some r1 =>
    match exactDigits 4 r1 with
    | none => none
    | some (year, r2) =>
      match exactDigits 6 r2 with
      | none => none
      | some (num, r3) => some (r3, [String.mk year, String.mk num])

/-- Pattern 3: `WO[\s\-]?(\d{2})[\s/\-]?(\d{6})` (IGNORECASE) at the head of
the input. -/
def tryP3 (s : List Char) : Option (List Char × List String) :=
  match matchWOHead s with
  | none => none
  | some r1 =>
    match exactDigits 2 (optClass isSepA r1) with
    | none => none
    | some (year, r2) =>
      match exactDigits 6 (optClass isSepB r2) with
      | none => none
      | some (num, r3) => some (r3, [String.mk year, String.mk num])

/-- Pattern 4: `WO(\d{10,14})` (IGNORECASE) at the head of the input: the
greedy bounded repetition takes the maximal digit run capped at 14, and
fails when fewer than 10 digits follow. -/
def tryP4 (s : List Char) : Option (List Char × List String) :=
  match matchWOHead s with
  | none => none
  | some r1 =>
    let ds := r1.takeWhile Char.isDigit
    if 10 ≤ ds.length then
      some (r1.drop (ds.take 14).length, [String.mk (ds.take 14)])
    else none

/-- Case-insensitive literal match; returns the remainder. -/
def icLit : List Char → List Char → Option (List Char)
  | [], s => some s
  | _ :: _, [] => none
  | a :: as, c :: cs => if c.toLower = a.toLower then icLit as cs else none

/-- The sub-pattern `(WO\d+)` (IGNORECASE): `WO` followed by the maximal
nonempty digit run; the capture keeps the original casing of the text. -/
def tryWOPlus (s : List Char) : Option (List Char × String) :=
  match s with
  | w :: o :: rest =>
    if w.toLower = 'w' ∧ o.toLower = 'o' then
      let ds := rest.takeWhile Char.isDigit
      if 1 ≤ ds.length then some (rest.drop ds.length, String.mk (w :: o :: ds)) else none
    else none
  | _ => none

/-- Patterns 5 and 6: `LIT[:\s]*(WO\d+)` (IGNORECASE) at the head of the
input, where `LIT` is `publication` or `patent`.  The greedy `[:\s]*` is
deterministic because its class never contains `W`/`w`. -/
def tryLitWO (lit : List Char) (s : List Char) : Option (List Char × List String) :=
  match icLit lit s with
  | none => none
  | some r1 =>
    match tryWOPlus (r1.dropWhile (fun c => c = ':' || isPySpace c)) with
    | none => none
    | some (rem, g) => some (rem, [g])

/-- Pattern 5: `publication[:\s]*(WO\d+)` (IGNORECASE). -/
def tryP5 (s : List Char) : Option (List Char × List String) :=
  tryLitWO ("publication".data) s

/-- Pattern 6: `patent[:\s]*(WO\d+)` (IGNORECASE). -/
def tryP6 (s : List Char) : Option (List Char × List String) :=
  tryLitWO ("patent".data) s

/-- `re.finditer` for one pattern: scan left to right, emit each
(non-overlapping) match's capture groups, resume after the matched span.
`fuel` starts at the text length; every pattern above consumes at least
one character per match, so the fuel never runs out before the text
does and the scan is exactly Python's. -/
def scanPatternAux (tryMatch : List Char → Option (List Char × List String)) :
    Nat → List Char → List (List String)
  | 0, _ => []
  | _ + 1, [] => []
  | fuel + 1, c :: rest =>
    match tryMatch (c :: rest) with
    | some (rem, g) => g :: scanPatternAux tryMatch fuel rem
    | none => scanPatternAux tryMatch fuel rest

/-- All capture-group tuples of one pattern over a text. -/
def scanPattern (tryMatch : List Char → Option (List Char × List String))
    (s : List Char) : List (List String) :=
  scanPatternAux tryMatch s.length s

/-- The group tuples of all six patterns, in the order the source iterates
over `patterns`. -/
def allPatternGroups (text : String) : List (List String) :=
  scanPattern tryP1 text.data ++ scanPattern tryP2 text.data ++
  scanPattern tryP3 text.data ++ scanPattern tryP4 text.data ++
  scanPattern tryP5 text.data ++ scanPattern tryP6 text.data

/-- The 2-digit-year expansion applied inside the match loop:
`year = f"20{year}" if int(year) < 50 else f"19{year}"` guarded by
`len(year) == 2`. -/
def expandYear (year : String) : String :=
  if year.length = 2 then
    (if strToNat year < 50 then "20" ++ year else "19" ++ year)
  else year

/-- The per-match branch on `match.groups()`: two captures build
`f"WO{year}{num}"` after year expansion; one capture is upper-cased and
prefixed with `WO` unless already so prefixed; other arities `continue`. -/
def processGroups : List String → Option String
  | [year, num] => some ("WO" ++ expandYear year ++ num)
  | [raw] =>
    let raw := pyUpper raw
    some (if pyStartsWith "WO" raw = true then raw else "WO" ++ raw)
  | _ => none

/-- `wo.upper().replace(" ", "").replace("-", "").replace("/", "")`. -/
def normalizeWo (wo : String) : String :=
  String.mk ((pyUpper wo).data.filter (fun c => !(c = ' ' || c = '-' || c = '/')))

/-- `re.match(r'(WO\d{10})', wo)`: anchored at the start, case-sensitive
(`wo` has already been upper-cased), the capture is `WO` plus the first 10
digits. -/
def matchWO10 (wo : String) : Option String :=
  match wo.data with
  | a :: b :: rest =>
    if a = 'W' ∧ b = 'O' ∧ (rest.take 10).length = 10 ∧ (rest.take 10).all Char.isDigit then
      some (String.mk (a :: b :: rest.take 10))
    else none
  | _ => none

/-- The whole body of the match loop for one capture tuple: build the raw
identifier, normalize it, re-anchor on `WO\d{10}`, and keep it only when
the parsed 4-digit year lies in 1990..2025.  (The Python `try/except
ValueError` around `int` can never fire: the year characters come from a
`\d{10}` match.) -/
def processCandidate (g : List String) : Option String :=
  match processGroups g with
  | none => none
  | some wo0 =>
    match matchWO10 (normalizeWo wo0) with
    | none => none
    | some woN =>
      if 1990 ≤ strToNat (String.mk ((woN.data.drop 2).take 4)) ∧
          strToNat (String.mk ((woN.data.drop 2).take 4)) ≤ 2025 then
        some woN
      else none

/-- `wo_numbers.add(...)` over the loop: the Python `set` is modelled as a
duplicate-free list (insertion order carries no meaning). -/
def wo_insert_step (s : List String) (g : List String) : List String :=
  match processCandidate g with
  | some wo => if wo ∈ s then s else s ++ [wo]
  | none => s

/-- `extract_wo_numbers_from_text`: empty text short-circuits to the empty
set (`if not text`); otherwise all matches of all six patterns are
processed and the surviving identifiers unioned into a set. -/
def extract_wo_numbers_from_text (text : String) : List String :=
  if text = "" then []
  else (allPatternGroups text).foldl wo_insert_step []

/-- Canonical-form predicate for an extracted identifier: literal `WO`,
then 10 digits (a 4-digit year followed by a 6-digit serial), with the
year in 1990..2025. -/
def isCanonicalWO (wo : String) : Prop :=
  wo.data.take 2 = ['W', 'O'] ∧
  (wo.data.drop 2).length = 10 ∧
  (wo.data.drop 2).all Char.isDigit = true ∧
  1990 ≤ strToNat (String.mk ((wo.data.drop 2).take 4)) ∧
  strToNat (String.mk ((wo.data.drop 2).take 4)) ≤ 2025

-- ============================================
-- QUERY BUILDING  (main.py: discover_wo_numbers, lines 283-347)
-- ============================================

/-- Strategy 1 fixed year roster. -/
def discovery_years : List String :=
  ["2006", "2008", "2010", "2011", "2012", "2014", "2015", "2016",
   "2017", "2018", "2019", "2020", "2021", "2022", "2023", "2024"]

/-- Strategy 2 fixed company roster. -/
def pharma_companies : List String :=
  ["Orion Corporation", "Orion Pharma", "Bayer", "Bayer Pharma AG",
   "AstraZeneca", "Pfizer", "Novartis", "Roche", "Merck",
   "Bristol-Myers Squibb", "Johnson & Johnson", "Eli Lilly",
   "Sanofi", "GlaxoSmithKline", "AbbVie", "Takeda", "Gilead"]

/-- Strategy 1: `f'"{molecule}" patent WO{year}'` per year. -/
def year_queries (molecule : String) : List String :=
  discovery_years.map (fun year => "\"" ++ molecule ++ "\" patent WO" ++ year)

/-- Strategy 2: `f'"{molecule}" "{company}" patent'` per company. -/
def company_queries (molecule : String) : List String :=
  pharma_companies.map (fun company => "\"" ++ molecule ++ "\" \"" ++ company ++ "\" patent")

/-- Strategy 3: two queries per dev code among the first 10, plus a third
for the hyphen-stripped variant when it differs. -/
def dev_code_queries (dev_codes : List String) : List String :=
  (dev_codes.take 10).foldl
    (fun acc dev =>
      let base := acc ++ ["\"" ++ dev ++ "\" patent WO",
                          "\"" ++ dev ++ "\" international patent application"]
      if removeHyphens dev ≠ dev then base ++ ["\"" ++ removeHyphens dev ++ "\" patent WO"]
      else base)
    []

/-- Strategy 4: two queries when a CAS number is present (Python truthiness:
`None` and the empty string both yield no queries). -/
def cas_queries : Option String → List String
  | none => []
  | some cas =>
    if cas = "" then []
    else ["\"" ++ cas ++ "\" patent WO", "\"" ++ cas ++ "\" PCT patent"]

/-- Strategy 5: two queries when a brand name is present. -/
def brand_queries : Option String → List String
  | none => []
  | some brand =>
    if brand = "" then []
    else ["\"" ++ brand ++ "\" patent WO",
          "\"" ++ brand ++ "\" pharmaceutical patent international"]

/-- Strategy 6: the seven fixed direct-molecule queries. -/
def direct_queries (molecule : String) : List String :=
  ["\"" ++ molecule ++ "\" WO patent application",
   "\"" ++ molecule ++ "\" PCT international application",
   "\"" ++ molecule ++ "\" WIPO patent",
   "site:patents.google.com \"" ++ molecule ++ "\" WO",
   "site:patentscope.wipo.int \"" ++ molecule ++ "\"",
   "\"" ++ molecule ++ "\" pharmaceutical composition patent WO",
   "\"" ++ molecule ++ "\" treatment method patent WO"]

/-- One iteration of the strategy-7 loop: `for syn in synonyms[:5]: if
len(syn) > 5 and len(syn) < 50: queries.append(f'"{syn}" patent WO')`. -/
def synonym_query_step (acc : List String) (syn : String) : List String :=
  if 5 < syn.length ∧ syn.length < 50 then acc ++ ["\"" ++ syn ++ "\" patent WO"] else acc

/-- Strategy 7: synonym-based queries. -/
def synonym_queries (synonyms : List String) : List String :=
  (synonyms.take 5).foldl synonym_query_step []

/-- The full `queries` list of `discover_wo_numbers` in source order. -/
def build_queries (molecule : String) (brand : Option String) (dev_codes : List String)
    (cas : Option String) (synonyms : List String) : List String :=
  year_queries molecule ++ company_queries molecule ++ dev_code_queries dev_codes ++
  cas_queries cas ++ brand_queries brand ++ direct_queries molecule ++
  synonym_queries synonyms

-- ============================================
-- BR EXTRACTION FROM WO  (main.py: extract_br_from_wo, lines 392-553)
-- ============================================

/-- The status values assigned by `extract_br_from_wo`: the Python strings
`"pending"`, `"success"`, `"no_br"`, `"skip"`, `"error"`.  (The spec calls
`no_br` "no_national_filings" and `skip` "skipped".) -/
inductive WoStatus
  | pending
  | success
  | no_br
  | skip
  | error
deriving DecidableEq

/-- The dictionary returned by `extract_br_from_wo`. -/
structure BrResult where
  wo_number : String
  br_patents : List String
  status : WoStatus
  reason : Option String
deriving DecidableEq

/-- `search_metadata` of the first-hop payload. -/
structure SearchMetadata where
  json_endpoint : Option String
deriving DecidableEq

/-- First-hop (`google_patents` search) payload. -/
structure SearchPayload where
  search_metadata : SearchMetadata
deriving DecidableEq

/-- One entry of `organic_results` in the second-hop payload. -/
structure OrganicResult where
  serpapi_link : Option String
deriving DecidableEq

/-- Second-hop (`json_endpoint`) payload. -/
structure EndpointPayload where
  organic_results : List OrganicResult
deriving DecidableEq

/-- A record carrying a `document_id` (entries of `worldwide_applications`). -/
structure WorldwideApp where
  document_id : String
deriving DecidableEq

/-- A record carrying a `publication_number` (`family_members`,
`citations`, `similar_documents`, and dict-shaped `also_published_as`
entries). -/
structure PubRecord where
  publication_number : String
deriving DecidableEq

/-- `also_published_as` entries are either raw strings or records; the
source ignores every other shape, so the model has only these two. -/
inductive AlsoPublished
  | ofString (s : String)
  | ofRecord (r : PubRecord)
deriving DecidableEq

/-- Third-hop (patent details) payload.  `worldwide_applications` is the
year-keyed map, modelled as its `.items()` list; the `isinstance` guards
of the source are vacuous in this typed model. -/
structure PatentPayload where
  worldwide_applications : List (String × List WorldwideApp)
  family_members : List PubRecord
  also_published_as : List AlsoPublished
  citations : List PubRecord
  similar_documents : List PubRecord
deriving DecidableEq

/-- Simulated upstream responses for one `extract_br_from_wo` run: one
per-attempt sequence for each of the three hops. -/
structure BrEnv where
  search_responses : Nat → Option (HttpResponse (Option SearchPayload))
  endpoint_responses : Nat → Option (HttpResponse (Option EndpointPayload))
  details_responses : Nat → Option (HttpResponse (Option PatentPayload))

/-- Python truthiness of an `Optional[str]`: falsy when missing or empty. -/
def falsyStr : Option String → Bool
  | none => true
  | some s => s == ""

/-- `br_patents.add(...)`: set insertion, modelled on a duplicate-free list. -/
def addBr (acc : List String) (s : String) : List String :=
  if s ∈ acc then acc else acc ++ [s]

/-- STEP 6 of `extract_br_from_wo`: scan the five sub-fields of the detail
record, in source order, keeping identifiers prefixed with `BR`. -/
def collect_br_patents (patent_data : PatentPayload) : List String :=
  let accA := patent_data.worldwide_applications.foldl
    (fun acc ya => ya.2.foldl
      (fun acc app => if pyStartsWith "BR" app.document_id = true then addBr acc app.document_id else acc)
      acc)
    []
  let accB := patent_data.family_members.foldl
    (fun acc m => if pyStartsWith "BR" m.publication_number = true then addBr acc m.publication_number else acc)
    accA
  let accC := patent_data.also_published_as.foldl
    (fun acc p => match p with
      | AlsoPublished.ofString s => if pyStartsWith "BR" s = true then addBr acc s else acc
      | AlsoPublished.ofRecord r =>
        if pyStartsWith "BR" r.publication_number = true then addBr acc r.publication_number else acc)
    accB
  let accD := patent_data.citations.foldl
    (fun acc c => if pyStartsWith "BR" c.publication_number = true then addBr acc c.publication_number else acc)
    accC
  patent_data.similar_documents.foldl
    (fun acc d => if pyStartsWith "BR" d.publication_number = true then addBr acc d.publication_number else acc)
    accD

/-- `extract_br_from_wo(wo_number, client, debug_log)` under simulated
responses.  Every early `return` of the source becomes a literal
`BrResult`; the `except` branch (reasons recorded as `str(e)`) is reached
exactly when a fetched body fails to parse (`body = none`), modelled with
the reason string `"Exception"`. -/
def extract_br_from_wo (wo_number : String) (env : BrEnv) : BrResult :=
  match http_get_with_retry env.search_responses with
  | none => ⟨wo_number, [], WoStatus.error, some "Search failed"⟩
  | some sr =>
    if sr.status_code ≠ 200 then ⟨wo_number, [], WoStatus.error, some "Search failed"⟩
    else match sr.body with
    | none => ⟨wo_number, [], WoStatus.error, some "Exception"⟩
    | some search_data =>
      if falsyStr search_data.search_metadata.json_endpoint then
        ⟨wo_number, [], WoStatus.skip, some "No json_endpoint"⟩
      else match http_get_with_retry env.endpoint_responses with
      | none => ⟨wo_number, [], WoStatus.skip, some "Endpoint fetch failed"⟩
      | some er =>
        if er.status_code ≠ 200 then ⟨wo_number, [], WoStatus.skip, some "Endpoint fetch failed"⟩
        else match er.body with
        | none => ⟨wo_number, [], WoStatus.error, some "Exception"⟩
        | some endpoint_data =>
          match endpoint_data.organic_results with
          | [] => ⟨wo_number, [], WoStatus.skip, some "No organic results"⟩
          | first :: _ =>
            if falsyStr first.serpapi_link then
              ⟨wo_number, [], WoStatus.skip, some "No serpapi_link"⟩
            else match http_get_with_retry env.details_responses with
            | none => ⟨wo_number, [], WoStatus.skip, some "Details fetch failed"⟩
            | some dr =>
              if dr.status_code ≠ 200 then ⟨wo_number, [], WoStatus.skip, some "Details fetch failed"⟩
              else match dr.body with
              | none => ⟨wo_number, [], WoStatus.error, some "Exception"⟩
              | some patent_data =>
                ⟨wo_number, collect_br_patents patent_data,
                  if collect_br_patents patent_data = [] then WoStatus.no_br else WoStatus.success,
                  none⟩

-- ============================================
-- CONSOLIDATION  (main.py: search_patents, lines 702-727)
-- ============================================

/-- The normalization used by `seen_br`:
`br.replace("-", "").replace(" ", "").upper()`. -/
def normBR (s : String) : String :=
  pyUpper (String.mk (s.data.filter (fun c => !(c = '-' || c = ' '))))

/-- One record of the `inpi_patents` list fed into consolidation. -/
structure InpiPatent where
  number : String
  title : String
  filing_date : String
  link : String
deriving DecidableEq

/-- One record of the consolidated `all_br_patents` list. -/
structure BRPatentEntry where
  number : String
  source : String
  link : String
  title : Option String
  filing_date : Option String
deriving DecidableEq

/-- One iteration of the first consolidation loop (BR numbers found via WO
extraction): skip when the normalized identifier was already seen,
otherwise record it with source `wo_extraction`. -/
def consolidate_wo_step (acc : List BRPatentEntry × List String) (br : String) :
    List BRPatentEntry × List String :=
  if normBR br ∈ acc.2 then acc
  else (acc.1 ++ [⟨br, "wo_extraction", "https://patents.google.com/patent/" ++ br, none, none⟩],
        acc.2 ++ [normBR br])

/-- One iteration of the second consolidation loop (INPI direct results). -/
def consolidate_inpi_step (acc : List BRPatentEntry × List String) (p : InpiPatent) :
    List BRPatentEntry × List String :=
  if normBR p.number ∈ acc.2 then acc
  else (acc.1 ++ [⟨p.number, "inpi_direct", p.link, some p.title, some p.filing_date⟩],
        acc.2 ++ [normBR p.number])

/-- The consolidation block of `search_patents`: the WO-extraction loop
runs to completion before the INPI loop starts, both sharing `seen_br`. -/
def consolidate (all_br_from_wo : List String) (inpi_patents : List InpiPatent) :
    List BRPatentEntry :=
  (inpi_patents.foldl consolidate_inpi_step
    (all_br_from_wo.foldl consolidate_wo_step ([], []))).1

/-- Invariant of the consolidation accumulator: `seen_br` is exactly the
normalized identifiers of the records collected so far, without
duplicates. -/
def consInv (acc : List BRPatentEntry × List String) : Prop :=
  acc.2 = acc.1.map (fun r => normBR r.number) ∧ acc.2.Nodup

-- ============================================
-- SEARCH ENDPOINT BOUNDARY  (main.py: search_patents, lines 631-656)
-- ============================================

/-- The request body model (`nome_molecula` required, `nome_comercial`
optional). -/
structure PatentSearchRequest where
  nome_molecula : String
  nome_comercial : Option String
deriving DecidableEq

/-- What the `/search` handler does at its boundary. -/
inductive BoundaryOutcome
  | rejected
  | proceeds (first_call_url : String)
deriving DecidableEq

/-- The boundary behaviour of `search_patents`: it trims the molecule name
and then — with no emptiness check anywhere between entry and the first
outbound call — invokes `fetch_pubchem_data(molecule, client)`, whose
first action is the PubChem synonyms HTTP GET.  There is no code path
that rejects the request. -/
def search_patents_boundary (req : PatentSearchRequest) : BoundaryOutcome :=
  BoundaryOutcome.proceeds (fetch_pubchem_url (pyStrip req.nome_molecula))

-- ============================================
-- Concrete inputs used by witnesses and counterexamples
-- ============================================

/-- A 429 on the first attempt, then 200 responses. -/
def resp429then200 : Nat → Option (HttpResponse Nat) :=
  fun i => if i = 0 then some ⟨429, 0⟩ else some ⟨200, 7⟩

/-- Nothing but 429 responses. -/
def respAll429 : Nat → Option (HttpResponse Nat) :=
  fun _ => some ⟨429, 0⟩

/-- An environment in which all three hops answer 200 with well-formed
payloads but the detail record contains no BR identifier at all. -/
def envNoBr : BrEnv :=
  ⟨fun _ => some ⟨200, some ⟨⟨some "https://serpapi.test/endpoint"⟩⟩⟩,
   fun _ => some ⟨200, some ⟨[⟨some "https://serpapi.test/details"⟩]⟩⟩,
   fun _ => some ⟨200, some ⟨[], [], [], [], []⟩⟩⟩

/-- An environment in which every first-hop attempt fails. -/
def envSearchFail : BrEnv :=
  ⟨fun _ => none, fun _ => none, fun _ => none⟩

/-- A direct-registry record whose normalized identifier collides with the
WO-extraction records used in the consolidation witness. -/
def inpiSample : InpiPatent :=
  ⟨"BR-11-2020-001234-2", "Applicant X", "2020-01-01", "https://busca.inpi.gov.br/x"⟩

-- ============================================
-- Helper lemmas
-- ============================================

theorem data_mk (l : List Char) : (String.mk l).data = l := rfl

theorem http_retry_go_finds {α : Type} (resp : Nat → Option (HttpResponse α)) :
    ∀ (n fuel attempt : Nat) (r : HttpResponse α),
    n < fuel →
    (∀ i, i < n → ∃ s, resp (attempt + i) = some s ∧ s.status_code = 429) →
    resp (attempt + n) = some r → r.status_code = 200 →
    http_retry_go resp fuel attempt = some r := by
  intro n
  induction n with
  | zero =>
    intro fuel attempt r hfuel _ hr h200
    match fuel, hfuel with
    | fuel + 1, _ =>
      rw [Nat.add_zero] at hr
      simp only [http_retry_go, hr, h200, if_pos]
  | succ n ih =>
    intro fuel attempt r hfuel h429 hr h200
    match fuel, hfuel with
    | fuel + 1, hfuel =>
      obtain ⟨s, hs, hs429⟩ := h429 0 (Nat.succ_pos n)
      rw [Nat.add_zero] at hs
      simp only [http_retry_go, hs, hs429]
      rw [if_neg (by omega)]
      apply ih fuel (attempt + 1) r (Nat.lt_of_succ_lt_succ hfuel)
      · intro i hi
        have h := h429 (i + 1) (Nat.succ_lt_succ hi)
        rw [show attempt + (i + 1) = attempt + 1 + i by omega] at h
        exact h
      · rw [show attempt + 1 + n = attempt + (n + 1) by omega]
        exact hr
      · exact h200

theorem http_retry_go_none {α : Type} (resp : Nat → Option (HttpResponse α)) :
    ∀ (fuel attempt : Nat),
    (∀ i, i < fuel → ∀ s, resp (attempt + i) = some s → s.status_code ≠ 200) →
    http_retry_go resp fuel attempt = none := by
  intro fuel
  induction fuel with
  | zero => intro attempt _; rfl
  | succ fuel ih =>
    intro attempt h
    have hrest : ∀ i, i < fuel → ∀ s, resp (attempt + 1 + i) = some s → s.status_code ≠ 200 := by
      intro i hi s hsi
      apply h (i + 1) (by omega) s
      rw [show attempt + (i + 1) = attempt + 1 + i by omega]
      exact hsi
    cases hs : resp attempt with
    | none => simp only [http_retry_go, hs]; exact ih (attempt + 1) hrest
    | some s =>
      have hne := h 0 (by omega) s (by rw [Nat.add_zero]; exact hs)
      simp only [http_retry_go, hs]
      rw [if_neg hne]
      exact ih (attempt + 1) hrest

theorem http_retry_go_200 {α : Type} (resp : Nat → Option (HttpResponse α)) :
    ∀ (fuel attempt : Nat),
    http_retry_go resp fuel attempt = none ∨
    ∃ r, http_retry_go resp fuel attempt = some r ∧ r.status_code = 200 := by
  intro fuel
  induction fuel with
  | zero => intro _; exact Or.inl rfl
  | succ fuel ih =>
    intro attempt
    cases hs : resp attempt with
    | none => simp only [http_retry_go, hs]; exact ih (attempt + 1)
    | some r =>
      by_cases h200 : r.status_code = 200
      · right
        exact ⟨r, by simp only [http_retry_go, hs]; rw [if_pos h200], h200⟩
      · simp only [http_retry_go, hs]
        rw [if_neg h200]
        exact ih (attempt + 1)

-- ============================================
-- C1  (code_bug: the boundary never rejects)
-- ============================================

/-- C1: the claim states that an empty (after trimming) molecule name is
rejected before any external call.  The code of `search_patents` contains
no such check: for the empty and the all-blank molecule name — and indeed
for every request — the handler proceeds straight to the PubChem synonyms
HTTP GET, so an external call is always made and no rejection ever
happens.  This theorem evaluates the embedded boundary at the failing
inputs and in general. -/
theorem C1_no_rejection_before_external_call :
    search_patents_boundary ⟨"", none⟩ = BoundaryOutcome.proceeds (fetch_pubchem_url "") ∧
    search_patents_boundary ⟨"   ", none⟩ = BoundaryOutcome.proceeds (fetch_pubchem_url "") ∧
    ∀ req : PatentSearchRequest,
      search_patents_boundary req =
        BoundaryOutcome.proceeds (fetch_pubchem_url (pyStrip req.nome_molecula)) :=
  ⟨by decide, by decide, fun _ => rfl⟩

-- ============================================
-- C3  (confirmed: retry returns an in-budget 200, else the empty sentinel)
-- ============================================

/-- C3: for every simulated response sequence that answers 429 on each
attempt before index `n` and 200 at attempt `n < max_retries`, the
resilient fetch returns that 200 response; and whenever no attempt within
`max_retries` yields a 200, it returns the empty sentinel `none` (it never
propagates an error past its boundary). -/
theorem C3_retry_policy :
    (∀ (α : Type) (responses : Nat → Option (HttpResponse α)) (max_retries n : Nat)
        (r : HttpResponse α),
      (∀ i, i < n → ∃ s, responses i = some s ∧ s.status_code = 429) →
      n < max_retries → responses n = some r → r.status_code = 200 →
      http_get_with_retry responses max_retries = some r) ∧
    (∀ (α : Type) (responses : Nat → Option (HttpResponse α)) (max_retries : Nat),
      (∀ i, i < max_retries → ∀ s, responses i = some s → s.status_code ≠ 200) →
      http_get_with_retry responses max_retries = none) := by
  constructor
  · intro α resp maxr n r h429 hn hr h200
    unfold http_get_with_retry
    apply http_retry_go_finds resp n maxr 0 r hn
    · intro i hi
      rw [Nat.zero_add]
      exact h429 i hi
    · rw [Nat.zero_add]; exact hr
    · exact h200
  · intro α resp maxr h
    unfold http_get_with_retry
    apply http_retry_go_none resp maxr 0
    intro i hi s hsi
    rw [Nat.zero_add] at hsi
    exact h i hi s hsi

/-- C3 witness: one 429 followed by a 200 within the default budget of 3
returns the 200 response; a sequence of nothing but 429s returns `none`. -/
theorem C3_retry_policy_witness :
    http_get_with_retry resp429then200 3 = some (⟨200, 7⟩ : HttpResponse Nat) ∧
    http_get_with_retry respAll429 3 = none := by
  constructor
  · apply C3_retry_policy.1 Nat resp429then200 3 1 ⟨200, 7⟩
    · intro i hi
      have hi0 : i = 0 := Nat.lt_one_iff.mp hi
      subst hi0
      exact ⟨⟨429, 0⟩, rfl, rfl⟩
    · decide
    · rfl
    · rfl
  · apply C3_retry_policy.2 Nat respAll429 3
    intro i _ s hs
    simp only [respAll429] at hs
    injection hs with hs
    subst hs
    decide

-- ============================================
-- C10  (confirmed: callers only ever see `none` or a 200 response)
-- ============================================

/-- C10: whatever the simulated response sequence and retry budget, the
resilient fetch returns either the empty sentinel or a response whose
status code is exactly 200; non-200 responses are consumed internally as
retryable failures. -/
theorem C10_none_or_200 : ∀ (α : Type) (responses : Nat → Option (HttpResponse α))
    (max_retries : Nat),
    http_get_with_retry responses max_retries = none ∨
    ∃ r, http_get_with_retry responses max_retries = some r ∧ r.status_code = 200 := by
  intro α resp maxr
  unfold http_get_with_retry
  exact http_retry_go_200 resp maxr 0

-- ============================================
-- C2  (corrected: no_br completes with a null reason)
-- ============================================

/-- C2 counterexample: the claim states that every completion in a
non-success terminal state carries a non-null recorded reason.  In the
environment `envNoBr` all three hops succeed but the detail record holds
no BR identifier: the run completes in the non-success terminal state
`no_br` (the spec's `no_national_filings`) with `reason = None`. -/
theorem C2_counterexample :
    (extract_br_from_wo "WO2011051540" envNoBr).status = WoStatus.no_br ∧
    (extract_br_from_wo "WO2011051540" envNoBr).status ≠ WoStatus.success ∧
    (extract_br_from_wo "WO2011051540" envNoBr).reason = none := by
  refine ⟨by decide, by decide, by decide⟩

/-- C2 (amended): for every simulated response sequence, `extract_br_from_wo`
completes in exactly one of the four terminal states (never `pending`);
every `skip` or `error` completion carries a non-null reason, while a
`no_br` completion records no reason. -/
theorem C2_amended_terminal_status : ∀ (wo : String) (env : BrEnv),
    ((extract_br_from_wo wo env).status = WoStatus.success ∨
     (extract_br_from_wo wo env).status = WoStatus.no_br ∨
     (extract_br_from_wo wo env).status = WoStatus.skip ∨
     (extract_br_from_wo wo env).status = WoStatus.error) ∧
    (extract_br_from_wo wo env).status ≠ WoStatus.pending ∧
    ((extract_br_from_wo wo env).status = WoStatus.skip →
      ((extract_br_from_wo wo env).reason).isSome = true) ∧
    ((extract_br_from_wo wo env).status = WoStatus.error →
      ((extract_br_from_wo wo env).reason).isSome = true) ∧
    ((extract_br_from_wo wo env).status = WoStatus.no_br →
      (extract_br_from_wo wo env).reason = none) := by
  intro wo env
  unfold extract_br_from_wo
  repeat' split
  all_goals refine ⟨?_, ?_, ?_, ?_, ?_⟩
  all_goals simp_all

/-- C2 witness: in an environment whose first hop never answers, the run
completes in `error` and the amended theorem yields its non-null reason. -/
theorem C2_amended_terminal_status_witness :
    ((extract_br_from_wo "WO2011051540" envSearchFail).reason).isSome = true :=
  (C2_amended_terminal_status "WO2011051540" envSearchFail).2.2.2.1 (by decide)

-- ============================================
-- C5  (confirmed: 2-digit year expansion with boundary at 50)
-- ============================================

/-- C5: inside the match loop, a matched identifier with a 2-digit year
`Y` is expanded to `20Y` when `int(Y) < 50` and to `19Y` when
`int(Y) ≥ 50`; in particular year `"11"` gives canonical year `"2011"`
and year `"85"` gives `"1985"`, with the boundary exactly at 50, and the
full extractor maps `"WO 11 051540"` to the canonical `WO2011051540`. -/
theorem C5_two_digit_year_expansion :
    (∀ year num : String, year.length = 2 → strToNat year < 50 →
      processGroups [year, num] = some ("WO" ++ ("20" ++ year) ++ num)) ∧
    (∀ year num : String, year.length = 2 → 50 ≤ strToNat year →
      processGroups [year, num] = some ("WO" ++ ("19" ++ year) ++ num)) ∧
    processGroups ["11", "051540"] = some "WO2011051540" ∧
    processGroups ["85", "051540"] = some "WO1985051540" ∧
    processGroups ["49", "123456"] = some "WO2049123456" ∧
    processGroups ["50", "123456"] = some "WO1950123456" ∧
    "WO2011051540" ∈ extract_wo_numbers_from_text "WO 11 051540" := by
  refine ⟨?_, ?_, by decide, by decide, by decide, by decide, by decide⟩
  · intro y n h2 hlt
    simp [processGroups, expandYear, h2, hlt]
  · intro y n h2 hge
    simp [processGroups, expandYear, h2, Nat.not_lt.mpr hge]

/-- C5 witness: the general expansion rule applied at year `"11"`. -/
theorem C5_two_digit_year_expansion_witness :
    processGroups ["11", "051540"] = some ("WO" ++ ("20" ++ "11") ++ "051540") :=
  C5_two_digit_year_expansion.1 "11" "051540" (by decide) (by decide)

-- ============================================
-- C6  (corrected: no zero-padding; short serials are discarded)
-- ============================================

/-- C6 counterexample: the claim states that a 3-digit serial `"540"` is
zero-padded to `"000540"`, so the text `"publication: WO2011540"` should
produce the canonical identifier `WO2011000540`.  It does not — the code
contains no padding step. -/
theorem C6_counterexample :
    "WO2011000540" ∉ extract_wo_numbers_from_text "publication: WO2011540" := by decide

/-- C6 (amended): extraction never zero-pads serials.  An identifier whose
serial has fewer than 6 digits is discarded entirely — the text
`"publication: WO2011540"` (3-digit serial `540`) yields no identifier at
all — while a serial already 6 digits long is kept verbatim. -/
theorem C6_amended_no_zero_padding :
    extract_wo_numbers_from_text "publication: WO2011540" = [] ∧
    "WO2011051540" ∈ extract_wo_numbers_from_text "publication: WO2011051540" := by
  refine ⟨by decide, by decide⟩

-- ============================================
-- C4  (confirmed: every extracted identifier is canonical)
-- ============================================

theorem mem_wo_insert_step (acc : List String) (g : List String) (wo : String)
    (h : wo ∈ wo_insert_step acc g) : wo ∈ acc ∨ processCandidate g = some wo := by
  unfold wo_insert_step at h
  cases hpc : processCandidate g with
  | none => simp only [hpc] at h; exact Or.inl h
  | some w =>
    simp only [hpc] at h
    by_cases hw : w ∈ acc
    · rw [if_pos hw] at h; exact Or.inl h
    · rw [if_neg hw] at h
      rcases List.mem_append.mp h with h2 | h2
      · exact Or.inl h2
      · simp at h2; subst h2; exact Or.inr rfl

theorem mem_wo_fold : ∀ (gs : List (List String)) (acc : List String) (wo : String),
    wo ∈ gs.foldl wo_insert_step acc →
    wo ∈ acc ∨ ∃ g, g ∈ gs ∧ processCandidate g = some wo := by
  intro gs
  induction gs with
  | nil => intro acc wo h; exact Or.inl h
  | cons g gs ih =>
    intro acc wo h
    rw [List.foldl_cons] at h
    rcases ih _ wo h with h1 | ⟨g', hg', hpc⟩
    · rcases mem_wo_insert_step _ _ _ h1 with h2 | h2
      · exact Or.inl h2
      · exact Or.inr ⟨g, List.mem_cons_self g gs, h2⟩
    · exact Or.inr ⟨g', List.mem_cons_of_mem g hg', hpc⟩

theorem wo_fold_nodup : ∀ (gs : List (List String)) (acc : List String),
    acc.Nodup → (gs.foldl wo_insert_step acc).Nodup := by
  intro gs
  induction gs with
  | nil => intro acc h; exact h
  | cons g gs ih =>
    intro acc h
    rw [List.foldl_cons]
    apply ih
    unfold wo_insert_step
    cases hpc : processCandidate g with
    | none => exact h
    | some w =>
      show (if w ∈ acc then acc else acc ++ [w]).Nodup
      by_cases hw : w ∈ acc
      · rw [if_pos hw]; exact h
      · rw [if_neg hw]
        rw [List.nodup_append]
        exact ⟨h, List.nodup_singleton w, by intro a ha hb; simp at hb; subst hb; exact hw ha⟩

theorem processCandidate_canonical (g : List String) (wo : String)
    (h : processCandidate g = some wo) : isCanonicalWO wo := by
  unfold processCandidate at h
  split at h
  · exact Option.noConfusion h
  · split at h
    · exact Option.noConfusion h
    · rename_i wo0 heqG woN heqM
      split at h
      · rename_i hy
        injection h with h
        subst h
        unfold matchWO10 at heqM
        split at heqM
        · rename_i a b rest
          split at heqM
          · rename_i hc
            injection heqM with heqM
            subst heqM
            obtain ⟨ha, hb, hlen, hdig⟩ := hc
            subst ha
            subst hb
            exact ⟨rfl, hlen, hdig, hy.1, hy.2⟩
          · exact Option.noConfusion heqM
        · exact Option.noConfusion heqM
      · exact Option.noConfusion h

/-- C4: every identifier extracted from any text is in canonical form —
literal `WO`, then a 4-digit year and a 6-digit serial (10 digits, all
separators stripped, upper-cased) with the year within 1990..2025; the
extraction is a pure function (running it twice gives the same result)
and its result is a duplicate-free set. -/
theorem C4_canonical_invariant : ∀ (text : String),
    (∀ wo ∈ extract_wo_numbers_from_text text, isCanonicalWO wo) ∧
    (extract_wo_numbers_from_text text).Nodup ∧
    extract_wo_numbers_from_text text = extract_wo_numbers_from_text text := by
  intro text
  refine ⟨?_, ?_, rfl⟩
  · intro wo hwo
    unfold extract_wo_numbers_from_text at hwo
    by_cases ht : text = ""
    · rw [if_pos ht] at hwo; exact absurd hwo (List.not_mem_nil wo)
    · rw [if_neg ht] at hwo
      rcases mem_wo_fold _ _ _ hwo with h | ⟨g, _, hpc⟩
      · exact absurd h (List.not_mem_nil wo)
      · exact processCandidate_canonical _ _ hpc
  · unfold extract_wo_numbers_from_text
    by_cases ht : text = ""
    · rw [if_pos ht]; exact List.nodup_nil
    · rw [if_neg ht]; exact wo_fold_nodup _ _ List.nodup_nil

/-- C4 witness: the identifier extracted from `"WO 2011 051540"` is
canonical. -/
theorem C4_canonical_invariant_witness :
    "WO2011051540" ∈ extract_wo_numbers_from_text "WO 2011 051540" ∧
    isCanonicalWO "WO2011051540" :=
  ⟨by decide, (C4_canonical_invariant "WO 2011 051540").1 "WO2011051540" (by decide)⟩

-- ============================================
-- C7  (confirmed: normalized dedup, chain origin wins)
-- ============================================

theorem consolidate_wo_step_inv (acc : List BRPatentEntry × List String) (br : String)
    (h : consInv acc) : consInv (consolidate_wo_step acc br) := by
  unfold consolidate_wo_step
  by_cases hmem : normBR br ∈ acc.2
  · rw [if_pos hmem]; exact h
  · rw [if_neg hmem]
    obtain ⟨h1, h2⟩ := h
    refine ⟨by simp [h1], ?_⟩
    rw [List.nodup_append]
    exact ⟨h2, List.nodup_singleton _, by intro a ha hb; simp at hb; subst hb; exact hmem ha⟩

theorem consolidate_inpi_step_inv (acc : List BRPatentEntry × List String) (p : InpiPatent)
    (h : consInv acc) : consInv (consolidate_inpi_step acc p) := by
  unfold consolidate_inpi_step
  by_cases hmem : normBR p.number ∈ acc.2
  · rw [if_pos hmem]; exact h
  · rw [if_neg hmem]
    obtain ⟨h1, h2⟩ := h
    refine ⟨by simp [h1], ?_⟩
    rw [List.nodup_append]
    exact ⟨h2, List.nodup_singleton _, by intro a ha hb; simp at hb; subst hb; exact hmem ha⟩

theorem foldl_wo_inv : ∀ (l : List String) (acc : List BRPatentEntry × List String),
    consInv acc → consInv (l.foldl consolidate_wo_step acc) := by
  intro l
  induction l with
  | nil => intro acc h; exact h
  | cons x xs ih =>
    intro acc h
    rw [List.foldl_cons]
    exact ih _ (consolidate_wo_step_inv acc x h)

theorem foldl_inpi_inv : ∀ (l : List InpiPatent) (acc : List BRPatentEntry × List String),
    consInv acc → consInv (l.foldl consolidate_inpi_step acc) := by
  intro l
  induction l with
  | nil => intro acc h; exact h
  | cons x xs ih =>
    intro acc h
    rw [List.foldl_cons]
    exact ih _ (consolidate_inpi_step_inv acc x h)

theorem foldl_wo_extends : ∀ (l : List String) (acc : List BRPatentEntry × List String),
    ∃ t, (l.foldl consolidate_wo_step acc).1 = acc.1 ++ t := by
  intro l
  induction l with
  | nil => intro acc; exact ⟨[], by simp⟩
  | cons x xs ih =>
    intro acc
    rw [List.foldl_cons]
    obtain ⟨t, ht⟩ := ih (consolidate_wo_step acc x)
    by_cases hmem : normBR x ∈ acc.2
    · refine ⟨t, ?_⟩
      rw [ht]
      unfold consolidate_wo_step
      rw [if_pos hmem]
    · refine ⟨⟨x, "wo_extraction", "https://patents.google.com/patent/" ++ x, none, none⟩ :: t, ?_⟩
      rw [ht]
      unfold consolidate_wo_step
      rw [if_neg hmem]
      simp

theorem foldl_inpi_extends : ∀ (l : List InpiPatent) (acc : List BRPatentEntry × List String),
    ∃ t, (l.foldl consolidate_inpi_step acc).1 = acc.1 ++ t := by
  intro l
  induction l with
  | nil => intro acc; exact ⟨[], by simp⟩
  | cons x xs ih =>
    intro acc
    rw [List.foldl_cons]
    obtain ⟨t, ht⟩ := ih (consolidate_inpi_step acc x)
    by_cases hmem : normBR x.number ∈ acc.2
    · refine ⟨t, ?_⟩
      rw [ht]
      unfold consolidate_inpi_step
      rw [if_pos hmem]
    · refine ⟨⟨x.number, "inpi_direct", x.link, some x.title, some x.filing_date⟩ :: t, ?_⟩
      rw [ht]
      unfold consolidate_inpi_step
      rw [if_neg hmem]
      simp

theorem consolidate_wo_step_sources (acc : List BRPatentEntry × List String) (x : String)
    (h : ∀ r ∈ acc.1, r.source = "wo_extraction") :
    ∀ r ∈ (consolidate_wo_step acc x).1, r.source = "wo_extraction" := by
  intro r hr
  unfold consolidate_wo_step at hr
  by_cases hmem : normBR x ∈ acc.2
  · rw [if_pos hmem] at hr; exact h r hr
  · rw [if_neg hmem] at hr
    rcases List.mem_append.mp hr with h1 | h1
    · exact h r h1
    · simp at h1; subst h1; rfl

theorem foldl_wo_covers : ∀ (l : List String) (acc : List BRPatentEntry × List String),
    consInv acc → (∀ r ∈ acc.1, r.source = "wo_extraction") →
    ∀ br ∈ l, ∃ r ∈ (l.foldl consolidate_wo_step acc).1,
      normBR r.number = normBR br ∧ r.source = "wo_extraction" := by
  intro l
  induction l with
  | nil => intro acc _ _ br hbr; exact absurd hbr (List.not_mem_nil br)
  | cons x xs ih =>
    intro acc hinv hsrc br hbr
    rw [List.foldl_cons]
    rcases List.mem_cons.mp hbr with hbx | hbr'
    · subst hbx
      by_cases hmem : normBR br ∈ acc.2
      · obtain ⟨h1, _⟩ := hinv
        rw [h1] at hmem
        obtain ⟨r, hr, hre⟩ := List.mem_map.mp hmem
        obtain ⟨t, ht⟩ := foldl_wo_extends xs (consolidate_wo_step acc br)
        refine ⟨r, ?_, hre, hsrc r hr⟩
        rw [ht]
        apply List.mem_append_left
        unfold consolidate_wo_step
        by_cases hm2 : normBR br ∈ acc.2
        · rw [if_pos hm2]; exact hr
        · rw [if_neg hm2]; exact List.mem_append_left _ hr
      · obtain ⟨t, ht⟩ := foldl_wo_extends xs (consolidate_wo_step acc br)
        refine ⟨⟨br, "wo_extraction", "https://patents.google.com/patent/" ++ br, none, none⟩,
          ?_, rfl, rfl⟩
        rw [ht]
        apply List.mem_append_left
        unfold consolidate_wo_step
        rw [if_neg hmem]
        exact List.mem_append_right _ (List.mem_singleton.mpr rfl)
    · exact ih (consolidate_wo_step acc x) (consolidate_wo_step_inv acc x hinv)
        (consolidate_wo_step_sources acc x hsrc) br hbr'

/-- C7: consolidation deduplicates by the normalized identifier (hyphens
and spaces stripped, upper-cased) — so the output never holds two records
with the same normalized number, and two input strings differing only by
hyphens, spaces, or case collapse into one record; every identifier
arriving from the resolution chain is represented by a record whose
source is `wo_extraction` (first-seen-wins: the chain loop completes
before the direct-registry loop starts), and the two concrete spellings
of the claim normalize identically. -/
theorem C7_consolidation : ∀ (all_br_from_wo : List String) (inpi_patents : List InpiPatent),
    ((consolidate all_br_from_wo inpi_patents).map (fun r => normBR r.number)).Nodup ∧
    (∀ br ∈ all_br_from_wo,
      (consolidate all_br_from_wo inpi_patents).any
        (fun r => normBR r.number == normBR br && r.source == "wo_extraction") = true) ∧
    normBR "BR 11 2020 001234 2" = normBR "br112020001234-2" := by
  intro woL inpiL
  have hinv0 : consInv ([], []) := ⟨rfl, List.nodup_nil⟩
  have hinv2 := foldl_inpi_inv inpiL _ (foldl_wo_inv woL ([], []) hinv0)
  refine ⟨?_, ?_, by decide⟩
  · obtain ⟨h1, h2⟩ := hinv2
    unfold consolidate
    rw [← h1]
    exact h2
  · intro br hbr
    obtain ⟨r, hr, hnum, hsrc⟩ := foldl_wo_covers woL ([], []) hinv0
      (by intro r hr; exact absurd hr (List.not_mem_nil r)) br hbr
    obtain ⟨t, ht⟩ := foldl_inpi_extends inpiL (woL.foldl consolidate_wo_step ([], []))
    rw [List.any_eq_true]
    refine ⟨r, ?_, ?_⟩
    · unfold consolidate
      rw [ht]
      exact List.mem_append_left _ hr
    · simp [hnum, hsrc]

/-- C7 witness: two spellings of the same national filing collapse, and
the surviving record has resolution-chain origin even though the same
normalized identifier also arrives from the direct registry search. -/
theorem C7_consolidation_witness :
    (consolidate ["BR 11 2020 001234 2", "br112020001234-2"] [inpiSample]).any
      (fun r => normBR r.number == normBR "br112020001234-2" && r.source == "wo_extraction") =
      true :=
  (C7_consolidation ["BR 11 2020 001234 2", "br112020001234-2"] [inpiSample]).2.1
    "br112020001234-2" (by decide)

-- ============================================
-- C8  (corrected: the molecule name is not excluded from synonym queries)
-- ============================================

/-- C8 counterexample: with molecule name `darolutamide` and a synonym
list containing exactly that name, the synonym strategy generates a query
from the synonym equal to the molecule name — the claimed exclusion does
not exist in the code (the loop filters only on length), and the query
also reaches the full query list of the discovery phase. -/
theorem C8_counterexample :
    synonym_queries ["darolutamide"] = ["\"darolutamide\" patent WO"] ∧
    "\"darolutamide\" patent WO" ∈
      build_queries "darolutamide" none [] none ["darolutamide"] := by
  exact ⟨by decide, by decide⟩

theorem synonym_query_step_length (acc : List String) (x : String) :
    (synonym_query_step acc x).length ≤ acc.length + 1 := by
  unfold synonym_query_step
  split
  · simp
  · simp

theorem synonym_fold_length : ∀ (l acc : List String),
    (l.foldl synonym_query_step acc).length ≤ acc.length + l.length := by
  intro l
  induction l with
  | nil => intro acc; simp
  | cons x xs ih =>
    intro acc
    rw [List.foldl_cons]
    calc (xs.foldl synonym_query_step (synonym_query_step acc x)).length
        ≤ (synonym_query_step acc x).length + xs.length := ih _
      _ ≤ (acc.length + 1) + xs.length :=
          Nat.add_le_add_right (synonym_query_step_length acc x) xs.length
      _ = acc.length + (x :: xs).length := by simp [List.length_cons]; omega

theorem synonym_fold_provenance : ∀ (l acc : List String) (q : String),
    q ∈ l.foldl synonym_query_step acc →
    q ∈ acc ∨ ∃ syn, syn ∈ l ∧ 5 < syn.length ∧ syn.length < 50 ∧
      q = "\"" ++ syn ++ "\" patent WO" := by
  intro l
  induction l with
  | nil => intro acc q h; exact Or.inl h
  | cons x xs ih =>
    intro acc q h
    rw [List.foldl_cons] at h
    rcases ih _ q h with h1 | ⟨syn, hs, h5, h50, he⟩
    · unfold synonym_query_step at h1
      by_cases hc : 5 < x.length ∧ x.length < 50
      · rw [if_pos hc] at h1
        rcases List.mem_append.mp h1 with h2 | h2
        · exact Or.inl h2
        · simp at h2
          exact Or.inr ⟨x, List.mem_cons_self x xs, hc.1, hc.2, h2⟩
      · rw [if_neg hc] at h1
        exact Or.inl h1
    · exact Or.inr ⟨syn, List.mem_cons_of_mem x hs, h5, h50, he⟩

/-- C8 (amended): the synonym strategy generates at most 5 queries — one
per synonym among the first 5 whose length lies strictly between 5 and
50 — and every generated query comes from such a synonym; the molecule
name is NOT excluded: a synonym equal to the molecule name generates a
query like any other (see the counterexample). -/
theorem C8_amended_synonym_strategy :
    (∀ synonyms : List String, (synonym_queries synonyms).length ≤ 5) ∧
    (∀ synonyms : List String, ∀ q ∈ synonym_queries synonyms,
      (synonyms.take 5).any
        (fun syn => decide (5 < syn.length) && decide (syn.length < 50) &&
          (q == "\"" ++ syn ++ "\" patent WO")) = true) := by
  constructor
  · intro syns
    unfold synonym_queries
    calc (List.foldl synonym_query_step [] (syns.take 5)).length
        ≤ [].length + (syns.take 5).length := synonym_fold_length (syns.take 5) []
      _ = (syns.take 5).length := by simp
      _ ≤ 5 := by rw [List.length_take]; exact Nat.min_le_left 5 _
  · intro syns q hq
    unfold synonym_queries at hq
    rcases synonym_fold_provenance _ _ _ hq with h | ⟨syn, hs, h5, h50, he⟩
    · exact absurd h (List.not_mem_nil q)
    · rw [List.any_eq_true]
      exact ⟨syn, hs, by simp [he, h5, h50]⟩

/-- C8 amended witness: the bound and the provenance at concrete inputs. -/
theorem C8_amended_synonym_strategy_witness :
    (synonym_queries ["darolutamide", "Nubeqa"]).length ≤ 5 ∧
    (["darolutamide"].take 5).any
      (fun syn => decide (5 < syn.length) && decide (syn.length < 50) &&
        ("\"darolutamide\" patent WO" == "\"" ++ syn ++ "\" patent WO")) = true :=
  ⟨C8_amended_synonym_strategy.1 ["darolutamide", "Nubeqa"],
   C8_amended_synonym_strategy.2 ["darolutamide"] "\"darolutamide\" patent WO" (by decide)⟩

-- ============================================
-- C9  (confirmed: dev-code pattern, case-insensitive dedup, cap 25)
-- ============================================

theorem dev_code_step_cases (acc : List String) (syn : String) :
    dev_code_step acc syn = acc ∨
    (dev_code_step acc syn = acc ++ [syn] ∧ isDevCode syn = true ∧ acc.length < 25 ∧
      pyUpper syn ∉ acc.map pyUpper) := by
  unfold dev_code_step
  by_cases h0 : syn = ""
  · rw [if_pos h0]; exact Or.inl rfl
  · rw [if_neg h0]
    by_cases hc : isDevCode syn = true ∧ acc.length < 25 ∧ pyUpper syn ∉ acc.map pyUpper
    · rw [if_pos hc]; exact Or.inr ⟨rfl, hc.1, hc.2.1, hc.2.2⟩
    · rw [if_neg hc]; exact Or.inl rfl

theorem dev_fold_length : ∀ (l acc : List String), acc.length ≤ 25 →
    (l.foldl dev_code_step acc).length ≤ 25 := by
  intro l
  induction l with
  | nil => intro acc h; exact h
  | cons x xs ih =>
    intro acc h
    rw [List.foldl_cons]
    apply ih
    rcases dev_code_step_cases acc x with he | ⟨he, _, hlt, _⟩
    · rw [he]; exact h
    · rw [he]; simp; omega

theorem dev_fold_upper_nodup : ∀ (l acc : List String), (acc.map pyUpper).Nodup →
    ((l.foldl dev_code_step acc).map pyUpper).Nodup := by
  intro l
  induction l with
  | nil => intro acc h; exact h
  | cons x xs ih =>
    intro acc h
    rw [List.foldl_cons]
    apply ih
    rcases dev_code_step_cases acc x with he | ⟨he, _, _, hnm⟩
    · rw [he]; exact h
    · rw [he, List.map_append, List.nodup_append]
      exact ⟨h, List.nodup_singleton _, by intro a ha hb; simp at hb; subst hb; exact hnm ha⟩

theorem dev_fold_members : ∀ (l acc : List String) (d : String),
    d ∈ l.foldl dev_code_step acc → d ∈ acc ∨ (isDevCode d = true ∧ d ∈ l) := by
  intro l
  induction l with
  | nil => intro acc d h; exact Or.inl h
  | cons x xs ih =>
    intro acc d h
    rw [List.foldl_cons] at h
    rcases ih _ d h with h1 | ⟨hdev, hmem⟩
    · rcases dev_code_step_cases acc x with he | ⟨he, hdev, _, _⟩
      · rw [he] at h1; exact Or.inl h1
      · rw [he] at h1
        rcases List.mem_append.mp h1 with h2 | h2
        · exact Or.inl h2
        · simp at h2; subst h2; exact Or.inr ⟨hdev, List.mem_cons_self d xs⟩
    · exact Or.inr ⟨hdev, List.mem_cons_of_mem x hmem⟩

theorem dev_fold_extends : ∀ (l acc : List String), ∃ t, l.foldl dev_code_step acc = acc ++ t := by
  intro l
  induction l with
  | nil => intro acc; exact ⟨[], by simp⟩
  | cons x xs ih =>
    intro acc
    rw [List.foldl_cons]
    obtain ⟨t, ht⟩ := ih (dev_code_step acc x)
    rcases dev_code_step_cases acc x with he | ⟨he, _, _, _⟩
    · exact ⟨t, by rw [ht, he]⟩
    · exact ⟨x :: t, by rw [ht, he]; simp⟩

theorem dev_fold_complete : ∀ (l acc : List String), acc.length ≤ 25 →
    ∀ s ∈ l, s ≠ "" → isDevCode s = true →
    ((l.foldl dev_code_step acc).length = 25 ∨
      pyUpper s ∈ (l.foldl dev_code_step acc).map pyUpper) := by
  intro l
  induction l with
  | nil => intro acc _ s hs; exact absurd hs (List.not_mem_nil s)
  | cons x xs ih =>
    intro acc hle s hs hne hdev
    rw [List.foldl_cons]
    rcases List.mem_cons.mp hs with hsx | hs'
    · subst hsx
      by_cases hc : acc.length < 25 ∧ pyUpper s ∉ acc.map pyUpper
      · have he : dev_code_step acc s = acc ++ [s] := by
          unfold dev_code_step
          rw [if_neg hne, if_pos ⟨hdev, hc.1, hc.2⟩]
        rw [he]
        right
        obtain ⟨t, ht⟩ := dev_fold_extends xs (acc ++ [s])
        rw [ht]
        simp
      · have he : dev_code_step acc s = acc := by
          unfold dev_code_step
          rw [if_neg hne, if_neg (fun hh => hc ⟨hh.2.1, hh.2.2⟩)]
        rw [he]
        by_cases hlen : acc.length < 25
        · have hmem : pyUpper s ∈ acc.map pyUpper := by
            by_contra hnm
            exact hc ⟨hlen, hnm⟩
          right
          obtain ⟨t, ht⟩ := dev_fold_extends xs acc
          rw [ht, List.map_append]
          exact List.mem_append_left _ hmem
        · left
          obtain ⟨t, ht⟩ := dev_fold_extends xs acc
          have hge : 25 ≤ (xs.foldl dev_code_step acc).length := by
            rw [ht, List.length_append]
            omega
          have hle2 : (xs.foldl dev_code_step acc).length ≤ 25 :=
            dev_fold_length xs acc hle
          omega
    · apply ih (dev_code_step acc x) ?_ s hs' hne hdev
      rcases dev_code_step_cases acc x with he | ⟨he, _, hlt, _⟩
      · rw [he]; exact hle
      · rw [he]; simp; omega

/-- C9: a synonym is classified as a developmental code exactly when it
matches the pattern (2-5 letters, optional hyphen, 3-7 digits, optional
trailing letter) — `"ODM-201"` matches; the collected dev-code list is
capped at 25, case-insensitively duplicate-free, sound (every collected
entry matches the pattern and occurs among the synonyms), and complete
up to the cap (every non-empty matching synonym is represented
case-insensitively unless the cap of 25 was reached). -/
theorem C9_dev_code_classification :
    isDevCode "ODM-201" = true ∧
    (∀ synonyms : List String, (collect_dev_codes synonyms).length ≤ 25) ∧
    (∀ synonyms : List String, ((collect_dev_codes synonyms).map pyUpper).Nodup) ∧
    (∀ synonyms : List String, ∀ d ∈ collect_dev_codes synonyms,
      isDevCode d = true ∧ d ∈ synonyms) ∧
    (∀ synonyms : List String, ∀ s ∈ synonyms, s ≠ "" → isDevCode s = true →
      (collect_dev_codes synonyms).length = 25 ∨
      pyUpper s ∈ (collect_dev_codes synonyms).map pyUpper) := by
  refine ⟨by decide, ?_, ?_, ?_, ?_⟩
  · intro syns
    exact dev_fold_length syns [] (by simp)
  · intro syns
    exact dev_fold_upper_nodup syns [] (by simp)
  · intro syns d hd
    rcases dev_fold_members syns [] d hd with h | h
    · exact absurd h (List.not_mem_nil d)
    · exact ⟨h.1, h.2⟩
  · intro syns s hs hne hdev
    exact dev_fold_complete syns [] (by simp) s hs hne hdev

/-- C9 witness: `"ODM-201"` is classified as a developmental code from a
darolutamide-style synonym list. -/
theorem C9_dev_code_classification_witness :
    isDevCode "ODM-201" = true ∧ "ODM-201" ∈ ["darolutamide", "ODM-201", "odm-201"] :=
  ⟨C9_dev_code_classification.1,
   (C9_dev_code_classification.2.2.2.1 ["darolutamide", "ODM-201", "odm-201"] "ODM-201"
      (by decide)).2⟩
